import Mathlib

/-!
Shallow embedding of the mood-journal ingestion service (src/main.rs):
calendar dates (modelling chrono NaiveDate as a bounded day number),
the CSV entry parser, the gap detector and the request handler.
-/

/-- A calendar date, represented by its day number relative to 1970-01-01
under the proleptic Gregorian calendar. chrono NaiveDate stores a
year/ordinal pair but is behaviourally a bounded day counter; day-level
subtraction and day arithmetic act on this counter. -/
structure NaiveDate where
  day : Int
  deriving DecidableEq

/-- chrono restricts years to `i32::MIN >> 13 ..= i32::MAX >> 13`. -/
def MIN_YEAR : Int := -262144

def MAX_YEAR : Int := 262143

/-- Leap-year rule of the proleptic Gregorian calendar. -/
def isLeapYear (y : Int) : Bool :=
  (y % 4 == 0 && y % 100 != 0) || y % 400 == 0

def daysInMonth (y : Int) (m : Nat) : Nat :=
  if m = 1 ∨ m = 3 ∨ m = 5 ∨ m = 7 ∨ m = 8 ∨ m = 10 ∨ m = 12 then 31
  else if m = 4 ∨ m = 6 ∨ m = 9 ∨ m = 11 then 30
  else if m = 2 then (if isLeapYear y then 29 else 28)
  else 0

/-- Day number of a proleptic Gregorian date, counted from 1970-01-01,
by the standard civil-from-days algorithm used by calendar libraries
(floor division throughout). -/
def daysFromCivil (y : Int) (m d : Nat) : Int :=
  let yAdj : Int := if m ≤ 2 then y - 1 else y
  let era : Int := Int.fdiv yAdj 400
  let yoe : Int := yAdj - era * 400
  let mp : Nat := (m + 9) % 12
  let doy : Nat := (153 * mp + 2) / 5 + d - 1
  let doe : Int := yoe * 365 + Int.fdiv yoe 4 - Int.fdiv yoe 100 + (doy : Int)
  era * 146097 + doe - 719468

/-- Smallest representable day number (chrono NaiveDate::MIN). -/
def MIN_DAY : Int := daysFromCivil MIN_YEAR 1 1

/-- Largest representable day number (chrono NaiveDate::MAX). -/
def MAX_DAY : Int := daysFromCivil MAX_YEAR 12 31

/-- chrono NaiveDate::from_ymd_opt: succeeds exactly for calendar-valid
dates within the supported range (the range is checked both as the year
bound chrono uses and as the equivalent day-number bound). -/
def fromYmd (y : Int) (m d : Nat) : Option NaiveDate :=
  let dn := daysFromCivil y m d
  if MIN_YEAR ≤ y ∧ y ≤ MAX_YEAR ∧ 1 ≤ m ∧ m ≤ 12 ∧ 1 ≤ d ∧ d ≤ daysInMonth y m
      ∧ MIN_DAY ≤ dn ∧ dn ≤ MAX_DAY
  then some (NaiveDate.mk dn) else none

/-- Convenience constructor used for concrete dates in statements. -/
def mkDate (y : Int) (m d : Nat) : NaiveDate := NaiveDate.mk (daysFromCivil y m d)

/-- Rust char::is_whitespace — the Unicode White_Space set. Both chrono's
numeric-item whitespace skipping and StringRecord::trim use it. -/
def rustIsWhitespace (c : Char) : Bool :=
  (decide (9 ≤ c.toNat) && decide (c.toNat ≤ 13)) || c.toNat == 32 ||
  c.toNat == 133 || c.toNat == 160 || c.toNat == 5760 ||
  (decide (8192 ≤ c.toNat) && decide (c.toNat ≤ 8202)) ||
  c.toNat == 8232 || c.toNat == 8233 || c.toNat == 8239 ||
  c.toNat == 8287 || c.toNat == 12288

/-- Surrounding-whitespace trimming on a character sequence
(StringRecord::trim under Trim::All). -/
def trimChars (cs : List Char) : List Char :=
  ((cs.dropWhile rustIsWhitespace).reverse.dropWhile rustIsWhitespace).reverse

def isAsciiDigit (c : Char) : Bool :=
  decide (48 ≤ c.toNat) && decide (c.toNat ≤ 57)

/-- chrono scan::number: consume between one and maxDigits leading ASCII
digits and return their value alongside the rest of the input. -/
def scanNumber (maxDigits : Nat) (cs : List Char) : Option (Nat × List Char) :=
  let digits := (cs.take maxDigits).takeWhile isAsciiDigit
  if digits = [] then none
  else some (digits.foldl (fun acc c => acc * 10 + (c.toNat - 48)) 0,
             cs.drop digits.length)

/-- chrono parsing of one numeric format item: leading whitespace is
skipped; a signed item (only `%Y` here) accepts an explicit `+` or `-`
followed by unboundedly many digits, and without a sign at most `width`
digits are read; an unsigned item always reads at most `width` digits. -/
def parseNumericField (signed : Bool) (width : Nat) (cs : List Char) :
    Option (Int × List Char) :=
  let cs2 := cs.dropWhile rustIsWhitespace
  match cs2 with
  | [] => none
  | c :: rest =>
    if signed && c == '-' then
      (scanNumber rest.length rest).map (fun p => (-(p.1 : Int), p.2))
    else if signed && c == '+' then
      (scanNumber rest.length rest).map (fun p => ((p.1 : Int), p.2))
    else
      (scanNumber width cs2).map (fun p => ((p.1 : Int), p.2))

/-- Matching one literal format character. -/
def expectChar (c : Char) (cs : List Char) : Option (List Char) :=
  match cs with
  | d :: rest => if d == c then some rest else none
  | [] => none

/-- chrono NaiveDate::parse_from_str with format `%Y-%m-%d` (as called on
entries[0].full_date): `%Y` is signed with width 4, `%m` and `%d` are
unsigned with width 2, the two dashes are literal items, the whole input
must be consumed, and the parsed numbers must form a calendar-valid
in-range date. -/
def parseDate (s : String) : Option NaiveDate :=
  (parseNumericField true 4 s.data).bind (fun py =>
    (expectChar '-' py.2).bind (fun r1 =>
      (parseNumericField false 2 r1).bind (fun pm =>
        (expectChar '-' pm.2).bind (fun r2 =>
          (parseNumericField false 2 r2).bind (fun pd =>
            if pd.2 = [] then fromYmd py.1 pm.1.toNat pd.1.toNat
            else none)))))

/-- chrono NaiveDate::checked_sub_days with a day count `i ≥ 0`: fails
exactly when the result would fall below the representable range
(subtracting a nonnegative day count can only underflow). -/
def checkedSubDays (d : NaiveDate) (i : Nat) : Option NaiveDate :=
  let nd := d.day - (i : Int)
  if MIN_DAY ≤ nd then some (NaiveDate.mk nd) else none

/-- One logged journal record (struct MoodEntry in main.rs). -/
structure MoodEntry where
  full_date : String
  date : String
  weekday : String
  time : String
  mood : String
  activities : String
  note_title : String
  note : String
  deriving DecidableEq

/-- The `for i in 0..outstanding_entries` loop of get_missing_entry_dates:
arguments are the loop index, the number of remaining iterations and the
accumulated vector; on a failed checked_sub_days the whole accumulation is
discarded and the empty vector returned. -/
def missingLoop (today : NaiveDate) : Nat → Nat → List NaiveDate → List NaiveDate
  | _, 0, acc => acc
  | i, Nat.succ r, acc =>
    match checkedSubDays today i with
    | some d => missingLoop today (i + 1) r (acc ++ [d])
    | none => []

/-- get_missing_entry_dates from main.rs. `today` (Local::now().date_naive()
in the source) is passed explicitly. The `none` result models the unguarded
panics: indexing `entries[0]` on an empty vector, and `.unwrap()` on a
failed date parse. A negative day difference makes the Rust range
`0..outstanding_entries` empty, which `Int.toNat` (clamping negatives
to zero) reproduces. -/
def get_missing_entry_dates (entries : List MoodEntry) (today : NaiveDate) :
    Option (List NaiveDate) :=
  match entries with
  | [] => none
  | e :: _ =>
    match parseDate e.full_date with
    | none => none
    | some latest =>
      let outstanding : Int := today.day - latest.day
      if outstanding = 0 then some []
      else some (missingLoop today 0 outstanding.toNat [])

/-- The column names of the MoodEntry schema. -/
def colFullDate : String := "full_date"

def colDate : String := "date"

def colWeekday : String := "weekday"

def colTime : String := "time"

def colMood : String := "mood"

def colActivities : String := "activities"

def colNoteTitle : String := "note_title"

def colNote : String := "note"

/-- Quote character of the csv reader's default configuration. -/
def quoteChar : Char := Char.ofNat 34

/-- States of the csv-core record reader. -/
inductive CsvMode where
  | startRecord
  | startField
  | inField
  | inQuoted
  | afterQuote
  deriving DecidableEq

/-- Running state of the csv-core record reader: completed records,
completed fields of the current record, and the current field. -/
structure CsvState where
  records : List (List (List Char))
  fields : List (List Char)
  cur : List Char
  mode : CsvMode

/-- One transition of the csv-core reader on the next character: a comma
delimits fields; CR and LF terminate records (an LF after CR and empty
records are absorbed in startRecord, so blank lines are skipped); a quote
opens a quoted field only at field start, a doubled quote escapes a quote
inside one, and the lenient default resumes an unquoted tail after a
closing quote. `flexible(true)` means no field-count check anywhere. -/
def csvStep (st : CsvState) (c : Char) : CsvState :=
  match st.mode with
  | CsvMode.startRecord =>
    if c == '\n' || c == '\r' then st
    else if c == quoteChar then
      CsvState.mk st.records [] [] CsvMode.inQuoted
    else if c == ',' then
      CsvState.mk st.records [[]] [] CsvMode.startField
    else CsvState.mk st.records [] [c] CsvMode.inField
  | CsvMode.startField =>
    if c == quoteChar then
      CsvState.mk st.records st.fields [] CsvMode.inQuoted
    else if c == ',' then
      CsvState.mk st.records (st.fields ++ [[]]) [] CsvMode.startField
    else if c == '\n' || c == '\r' then
      CsvState.mk (st.records ++ [st.fields ++ [[]]]) [] [] CsvMode.startRecord
    else CsvState.mk st.records st.fields [c] CsvMode.inField
  | CsvMode.inField =>
    if c == ',' then
      CsvState.mk st.records (st.fields ++ [st.cur]) [] CsvMode.startField
    else if c == '\n' || c == '\r' then
      CsvState.mk (st.records ++ [st.fields ++ [st.cur]]) [] [] CsvMode.startRecord
    else CsvState.mk st.records st.fields (st.cur ++ [c]) CsvMode.inField
  | CsvMode.inQuoted =>
    if c == quoteChar then
      CsvState.mk st.records st.fields st.cur CsvMode.afterQuote
    else CsvState.mk st.records st.fields (st.cur ++ [c]) CsvMode.inQuoted
  | CsvMode.afterQuote =>
    if c == quoteChar then
      CsvState.mk st.records st.fields (st.cur ++ [quoteChar]) CsvMode.inQuoted
    else if c == ',' then
      CsvState.mk st.records (st.fields ++ [st.cur]) [] CsvMode.startField
    else if c == '\n' || c == '\r' then
      CsvState.mk (st.records ++ [st.fields ++ [st.cur]]) [] [] CsvMode.startRecord
    else CsvState.mk st.records st.fields (st.cur ++ [c]) CsvMode.inField

/-- Closing the reader at end of input: a record in progress is emitted
(an open field — even an unterminated quoted one — ends with the input). -/
def csvFinish (st : CsvState) : List (List (List Char)) :=
  match st.mode with
  | CsvMode.startRecord => st.records
  | CsvMode.startField => st.records ++ [st.fields ++ [[]]]
  | _ => st.records ++ [st.fields ++ [st.cur]]

/-- The csv reader strips one leading UTF-8 byte order mark. -/
def stripBom (cs : List Char) : List Char :=
  match cs with
  | c :: rest => if c.toNat == 65279 then rest else cs
  | [] => []

/-- The records of the input as the csv reader produces them, with
quote-aware field and record boundaries; the first is the header row. -/
def csvRecords (s : String) : List (List (List Char)) :=
  csvFinish ((stripBom s.data).foldl csvStep (CsvState.mk [] [] [] CsvMode.startRecord))

/-- `Trim::All` on the reader: every field of a record (headers included)
is trimmed of surrounding whitespace, after quote processing. -/
def trimRecord (r : List (List Char)) : List String :=
  r.map (fun f => String.mk (trimChars f))

/-- By-name field access used by serde deserialization of a record against
the header row: the value is the record field at the header position of the
column name, and it is missing when the header lacks the column or the
record is too short. -/
def lookupField (header row : List String) (name : String) : Option String :=
  match header.findIdx? (fun h => h == name) with
  | some i => row.get? i
  | none => none

/-- serde deserialization of one record into MoodEntry: every field of the
struct is mandatory, so the record decodes exactly when all eight columns
yield a value. -/
def deserializeRecord (header row : List String) : Option MoodEntry :=
  match lookupField header row colFullDate, lookupField header row colDate,
        lookupField header row colWeekday, lookupField header row colTime,
        lookupField header row colMood, lookupField header row colActivities,
        lookupField header row colNoteTitle, lookupField header row colNote with
  | some fd, some dt, some wd, some tm, some md, some ac, some nt, some no =>
      some (MoodEntry.mk fd dt wd tm md ac nt no)
  | _, _, _, _, _, _, _, _ => none

/-- The error value returned for a record that fails to decode
(`Box<dyn Error>` from the csv crate in the source). -/
structure ParseError where
  msg : String
  deriving DecidableEq

def missingFieldMsg : String := "missing field"

/-- One step of the `for result in rdr.deserialize()` loop: the `?`
operator propagates a row failure as the result of the whole call. -/
def deserializeRow (header : List String) (rec : List (List Char)) :
    Except ParseError MoodEntry :=
  match deserializeRecord header (trimRecord rec) with
  | some e => Except.ok e
  | none => Except.error (ParseError.mk missingFieldMsg)

/-- parse_csv_string from main.rs: the first record is the header row;
each further record is deserialized in order and the first failure aborts
the whole parse. An input with no records yields the empty vector. -/
def parse_csv_string (csv_data : String) : Except ParseError (List MoodEntry) :=
  match csvRecords csv_data with
  | [] => Except.ok []
  | headerRec :: rows => rows.mapM (deserializeRow (trimRecord headerRec))

/-- http HeaderMap restricted to what the handler reads: an association
list from header names to raw byte values. -/
abbrev HeaderMap := List (String × List Nat)

def HeaderMap.get (headers : HeaderMap) (name : String) : Option (List Nat) :=
  (headers.find? (fun p => p.fst == name)).map (fun p => p.snd)

def xAuthenticate : String := "x-authenticate"

def expectedToken : String := "daylio"

/-- http HeaderValue::to_str accepts exactly the visible ASCII bytes
(32..=126) and horizontal tab. -/
def isVisibleAscii (b : Nat) : Bool :=
  (decide (32 ≤ b) && decide (b < 127)) || b == 9

/-- http HeaderValue::to_str: succeeds exactly when every byte of the value
is visible ASCII, in which case the bytes are read as characters. -/
def headerValueToStr (v : List Nat) : Option String :=
  if v.all isVisibleAscii then some (String.mk (v.map Char.ofNat)) else none

def isUtf8Cont (b : Nat) : Bool := decide (128 ≤ b) && decide (b < 192)

/-- UTF-8 decoding of a byte sequence (String::from_utf8 in the handler):
rejects stray continuation bytes, truncated sequences, overlong encodings,
surrogates and code points beyond U+10FFFF. -/
def utf8Decode : List Nat → Option (List Char)
  | [] => some []
  | b :: rest =>
    if b < 128 then
      (utf8Decode rest).map (fun cs => Char.ofNat b :: cs)
    else if b < 192 then none
    else if b < 224 then
      match rest with
      | b1 :: rest2 =>
        if isUtf8Cont b1 then
          let c := (b - 192) * 64 + (b1 - 128)
          if 128 ≤ c then (utf8Decode rest2).map (fun cs => Char.ofNat c :: cs)
          else none
        else none
      | [] => none
    else if b < 240 then
      match rest with
      | b1 :: b2 :: rest3 =>
        if isUtf8Cont b1 && isUtf8Cont b2 then
          let c := (b - 224) * 4096 + (b1 - 128) * 64 + (b2 - 128)
          if 2048 ≤ c ∧ (c < 55296 ∨ 57343 < c) then
            (utf8Decode rest3).map (fun cs => Char.ofNat c :: cs)
          else none
        else none
      | _ => none
    else if b < 248 then
      match rest with
      | b1 :: b2 :: b3 :: rest4 =>
        if isUtf8Cont b1 && isUtf8Cont b2 && isUtf8Cont b3 then
          let c := (b - 240) * 262144 + (b1 - 128) * 4096
                     + (b2 - 128) * 64 + (b3 - 128)
          if 65536 ≤ c ∧ c ≤ 1114111 then
            (utf8Decode rest4).map (fun cs => Char.ofNat c :: cs)
          else none
        else none
      | _ => none
    else none

def fromUtf8 (bytes : List Nat) : Option String :=
  (utf8Decode bytes).map (fun cs => String.mk cs)

/-- Control-flow outcome of one run of the axum handler. `aborted` models
an unguarded panic inside the handler task (a `.unwrap()` on an Err or
None), as opposed to the early returns the code takes deliberately. -/
inductive HandlerOutcome where
  | unauthorized
  | aborted
  | invalidUtf8
  | invalidCsv
  | ok (missing : List NaiveDate)
  deriving DecidableEq

/-- The axum handler from main.rs: authentication gate, UTF-8 decoding of
the body, CSV parse, then gap detection. `today` stands for the ambient
Local::now().date_naive(). -/
def handler (headers : HeaderMap) (body : List Nat) (today : NaiveDate) :
    HandlerOutcome :=
  match HeaderMap.get headers xAuthenticate with
  | none => HandlerOutcome.unauthorized
  | some v =>
    match headerValueToStr v with
    | none => HandlerOutcome.aborted
    | some s =>
      if s ≠ expectedToken then HandlerOutcome.unauthorized
      else
        match fromUtf8 body with
        | none => HandlerOutcome.invalidUtf8
        | some bodyStr =>
          match parse_csv_string bodyStr with
          | Except.error _ => HandlerOutcome.invalidCsv
          | Except.ok entries =>
            match get_missing_entry_dates entries today with
            | none => HandlerOutcome.aborted
            | some ds => HandlerOutcome.ok ds

/-- Result of the authentication check alone, as the condition on lines
53-57 of main.rs evaluates: a missing header or a mismatched text value
short-circuit to unauthorized, while a value that is not valid text makes
`.to_str().unwrap()` panic. -/
inductive GateResult where
  | unauthorized
  | nonText
  | authorized
  deriving DecidableEq

def gateResult (headers : HeaderMap) : GateResult :=
  match HeaderMap.get headers xAuthenticate with
  | none => GateResult.unauthorized
  | some v =>
    match headerValueToStr v with
    | none => GateResult.nonText
    | some s =>
      if s = expectedToken then GateResult.authorized else GateResult.unauthorized

/-! Sample data used by the concrete witnesses below. -/

def fdJan30 : String := "2024-01-30"

def fdMay1 : String := "2024-05-01"

def badDateStr : String := "not-a-date"

def blank : String := ""

def entryJan30 : MoodEntry :=
  MoodEntry.mk fdJan30 blank blank blank blank blank blank blank

def entryMay1 : MoodEntry :=
  MoodEntry.mk fdMay1 blank blank blank blank blank blank blank

def badDateEntry : MoodEntry :=
  MoodEntry.mk badDateStr blank blank blank blank blank blank blank

def epochDate : NaiveDate := NaiveDate.mk 0

/-! Facts about the embedded definitions. -/

/-- A successfully parsed date always lies in the representable range. -/
theorem parseDate_day_bounds (s : String) (L : NaiveDate)
    (h : parseDate s = some L) : MIN_DAY ≤ L.day ∧ L.day ≤ MAX_DAY := by
  unfold parseDate at h
  simp only [Option.bind_eq_some] at h
  obtain ⟨py, -, r1, -, pm, -, r2, -, pd, -, hf⟩ := h
  split_ifs at hf
  simp only [fromYmd] at hf
  split_ifs at hf with hc
  · cases hf
    exact ⟨hc.2.2.2.2.2.2.1, hc.2.2.2.2.2.2.2⟩

/-- Unfolding one successful iteration of the loop. -/
theorem missingLoop_succ_some (today : NaiveDate) (i r : Nat)
    (acc : List NaiveDate) (d : NaiveDate)
    (h : checkedSubDays today i = some d) :
    missingLoop today i (r + 1) acc = missingLoop today (i + 1) r (acc ++ [d]) := by
  simp [missingLoop, h]

/-- Unfolding one failed iteration of the loop. -/
theorem missingLoop_succ_none (today : NaiveDate) (i r : Nat)
    (acc : List NaiveDate)
    (h : checkedSubDays today i = none) :
    missingLoop today i (r + 1) acc = [] := by
  simp [missingLoop, h]

/-- When no iteration underflows, the loop appends exactly the dates
`today − i`, `today − (i+1)`, …, in order. -/
theorem missingLoop_eq_of_min (today : NaiveDate) (r : Nat) :
    ∀ (i : Nat) (acc : List NaiveDate),
      (∀ j, j < r → MIN_DAY ≤ today.day - (i : Int) - (j : Int)) →
      missingLoop today i r acc =
        acc ++ (List.range r).map
          (fun (j : Nat) => NaiveDate.mk (today.day - (i : Int) - (j : Int))) := by
  induction r with
  | zero => intro i acc _; simp [missingLoop]
  | succ r ih =>
    intro i acc h
    have h0 : MIN_DAY ≤ today.day - (i : Int) := by
      have := h 0 (Nat.succ_pos r)
      simpa using this
    have hcs : checkedSubDays today i = some (NaiveDate.mk (today.day - (i : Int))) := by
      simp [checkedSubDays, h0]
    have hmap : (List.range r).map
        (fun (j : Nat) => NaiveDate.mk (today.day - ((i + 1 : Nat) : Int) - (j : Int))) =
        (List.range r).map
        ((fun j : Nat => NaiveDate.mk (today.day - (i : Int) - (j : Int))) ∘ Nat.succ) := by
      apply List.map_congr_left
      intro a _
      simp only [Function.comp_apply]
      congr 1
      push_cast
      ring
    rw [missingLoop_succ_some today i r acc _ hcs]
    rw [ih (i + 1) (acc ++ [NaiveDate.mk (today.day - (i : Int))]) ?_]
    · rw [hmap, List.append_assoc, List.singleton_append,
        List.range_succ_eq_map, List.map_cons, List.map_map]
      simp
    · intro j hj
      have := h (j + 1) (by omega)
      push_cast at this ⊢
      omega

/-- If some iteration in range underflows, the loop returns the empty
list whatever was already accumulated. -/
theorem missingLoop_abort (today : NaiveDate) (r : Nat) :
    ∀ (i : Nat) (acc : List NaiveDate),
      (∃ j, j < r ∧ checkedSubDays today (i + j) = none) →
      missingLoop today i r acc = [] := by
  induction r with
  | zero =>
    intro i acc h
    obtain ⟨j, hj, -⟩ := h
    omega
  | succ r ih =>
    intro i acc h
    obtain ⟨j, hj, hnone⟩ := h
    cases hcs : checkedSubDays today i with
    | none => exact missingLoop_succ_none today i r acc hcs
    | some d =>
      have hj0 : j ≠ 0 := by
        intro h0
        rw [h0, Nat.add_zero, hcs] at hnone
        exact Option.noConfusion hnone
      obtain ⟨jp, rfl⟩ : ∃ jp, j = jp + 1 := ⟨j - 1, by omega⟩
      rw [missingLoop_succ_some today i r acc d hcs]
      exact ih (i + 1) (acc ++ [d])
        ⟨jp, by omega, by rw [show i + 1 + jp = i + (jp + 1) by omega]; exact hnone⟩

/-! Claims about the Gap Detector. -/

/-- C1: for an entries sequence whose first element's full_date parses as
a date `latest`, and for `today = latest + n` days with `n ≥ 1`, the gap
detector returns exactly the `n` dates `today`, `today − 1`, …,
`today − (n−1)`, most recent first, with day-level calendar arithmetic
(the day-number encoding carries month and year boundaries). -/
theorem gap_detector_gap_dates (e : MoodEntry) (rest : List MoodEntry)
    (today latest : NaiveDate) (n : Nat)
    (hparse : parseDate e.full_date = some latest)
    (hn : 1 ≤ n)
    (htoday : today.day = latest.day + (n : Int)) :
    get_missing_entry_dates (e :: rest) today =
      some ((List.range n).map (fun (i : Nat) => NaiveDate.mk (today.day - (i : Int)))) ∧
    ((List.range n).map (fun (i : Nat) => NaiveDate.mk (today.day - (i : Int)))).length = n := by
  have hmin : MIN_DAY ≤ latest.day := (parseDate_day_bounds _ _ hparse).1
  refine ⟨?_, by rw [List.length_map, List.length_range]⟩
  simp only [get_missing_entry_dates, hparse]
  have hout : today.day - latest.day = (n : Int) := by omega
  rw [hout]
  rw [if_neg (by omega)]
  have htn : ((n : Int)).toNat = n := by omega
  rw [htn]
  rw [missingLoop_eq_of_min today n 0 [] (by intro j hj; push_cast; omega)]
  simp

/-- C1 witness: latest = 2024-01-30, today = 2024-02-02: the three missing
dates cross the January/February boundary. -/
theorem gap_detector_gap_dates_witness :
    get_missing_entry_dates [entryJan30] (mkDate 2024 2 2) =
      some [mkDate 2024 2 2, mkDate 2024 2 1, mkDate 2024 1 31] := by
  have h := gap_detector_gap_dates entryJan30 [] (mkDate 2024 2 2)
    (mkDate 2024 1 30) 3 (by decide) (by decide) (by decide)
  rw [h.1]
  decide

/-- C2: when today equals the latest entry date, the gap detector returns
the empty sequence. -/
theorem gap_detector_caught_up (e : MoodEntry) (rest : List MoodEntry)
    (today latest : NaiveDate)
    (hparse : parseDate e.full_date = some latest)
    (heq : today = latest) :
    get_missing_entry_dates (e :: rest) today = some [] := by
  subst heq
  simp [get_missing_entry_dates, hparse]

/-- C2 witness: a single entry dated 2024-05-01 with today = 2024-05-01. -/
theorem gap_detector_caught_up_witness :
    get_missing_entry_dates [entryMay1] (mkDate 2024 5 1) = some [] :=
  gap_detector_caught_up entryMay1 [] (mkDate 2024 5 1) (mkDate 2024 5 1)
    (by decide) rfl

/-- C3: on an empty entries sequence, or when the first entry's full_date
does not parse, the gap detector is an unguarded fatal failure (modelled
as `none`); under the precondition that entries is non-empty with a
parseable first date, those failure branches are unreachable and a value
is always produced. -/
theorem gap_detector_fatal_conditions (today : NaiveDate) :
    (get_missing_entry_dates [] today = none) ∧
    (∀ e rest, parseDate e.full_date = none →
      get_missing_entry_dates (e :: rest) today = none) ∧
    (∀ e rest latest, parseDate e.full_date = some latest →
      (get_missing_entry_dates (e :: rest) today).isSome = true) := by
  refine ⟨rfl, ?_, ?_⟩
  · intro e rest h
    simp [get_missing_entry_dates, h]
  · intro e rest latest h
    simp only [get_missing_entry_dates, h]
    split <;> simp

/-- C3 witness: the empty sequence and an unparseable date both hit the
fatal branch; a parseable first date never does. -/
theorem gap_detector_fatal_conditions_witness :
    get_missing_entry_dates [] epochDate = none ∧
    get_missing_entry_dates [badDateEntry] epochDate = none ∧
    (get_missing_entry_dates [entryMay1] epochDate).isSome = true :=
  ⟨(gap_detector_fatal_conditions epochDate).1,
   (gap_detector_fatal_conditions epochDate).2.1 badDateEntry [] (by decide),
   (gap_detector_fatal_conditions epochDate).2.2 entryMay1 [] (mkDate 2024 5 1)
     (by decide)⟩

/-- C5: if some iteration's day subtraction underflows the representable
range, the accumulation aborts and the whole result is the empty sequence,
never a partial list (stated on the accumulation loop of
get_missing_entry_dates; dates obtained by parsing are in range, so the
wrapper alone can never drive the loop into this branch). -/
theorem gap_detector_underflow_empty (today : NaiveDate) (n : Nat)
    (h : ∃ i, i < n ∧ checkedSubDays today i = none) :
    missingLoop today 0 n [] = [] := by
  obtain ⟨i, hi, hnone⟩ := h
  exact missingLoop_abort today n 0 []
    ⟨i, hi, by rw [Nat.zero_add]; exact hnone⟩

/-- C5 witness: starting at the minimal representable date, the second
iteration underflows and the loop yields the empty list. -/
theorem gap_detector_underflow_empty_witness :
    checkedSubDays (NaiveDate.mk MIN_DAY) 1 = none ∧
    missingLoop (NaiveDate.mk MIN_DAY) 0 2 [] = [] :=
  ⟨by decide,
   gap_detector_underflow_empty (NaiveDate.mk MIN_DAY) 2 ⟨1, by decide, by decide⟩⟩

/-- C10: when the first entry's date parses to a date strictly later than
today, the day difference is negative, the Rust range `0..gap` is empty,
and the gap detector returns the empty sequence. -/
theorem gap_detector_future_latest (e : MoodEntry) (rest : List MoodEntry)
    (today latest : NaiveDate)
    (hparse : parseDate e.full_date = some latest)
    (hlt : today.day < latest.day) :
    get_missing_entry_dates (e :: rest) today = some [] := by
  simp only [get_missing_entry_dates, hparse]
  rw [if_neg (by omega)]
  have h0 : (today.day - latest.day).toNat = 0 := by omega
  rw [h0]
  rfl

/-- C10 witness: latest entry 2024-05-01 with today = 2024-04-30. -/
theorem gap_detector_future_latest_witness :
    get_missing_entry_dates [entryMay1] (mkDate 2024 4 30) = some [] :=
  gap_detector_future_latest entryMay1 [] (mkDate 2024 4 30) (mkDate 2024 5 1)
    (by decide) (by decide)

/-! Claims about the Entry Parser. -/

/-- When some data record fails to decode, deserializing the sequence
yields an error. -/
theorem mapM_deserializeRow_error (header : List String) :
    ∀ rows : List (List (List Char)),
      (∃ row ∈ rows, deserializeRecord header (trimRecord row) = none) →
      ∃ err, rows.mapM (deserializeRow header) = Except.error err := by
  intro rows
  induction rows with
  | nil =>
    intro h
    obtain ⟨row, hm, -⟩ := h
    exact absurd hm (List.not_mem_nil row)
  | cons r rs ih =>
    intro h
    obtain ⟨row, hm, hnone⟩ := h
    rcases List.mem_cons.mp hm with heq | htail
    · subst heq
      refine ⟨ParseError.mk missingFieldMsg, ?_⟩
      rw [List.mapM_cons]
      simp only [deserializeRow, hnone]
      rfl
    · cases hd : deserializeRecord header (trimRecord r) with
      | none =>
        refine ⟨ParseError.mk missingFieldMsg, ?_⟩
        rw [List.mapM_cons]
        simp only [deserializeRow, hd]
        rfl
      | some e =>
        obtain ⟨err, herr⟩ := ih ⟨row, htail, hnone⟩
        refine ⟨err, ?_⟩
        rw [List.mapM_cons]
        simp only [deserializeRow, hd, herr]
        rfl

/-- C6: if any single data row cannot be decoded into the required
MoodEntry fields, the whole parse call returns a ParseError; the row is
never silently skipped. -/
theorem parser_row_error_fails_parse (csv_data : String)
    (headerRec row : List (List Char)) (rows : List (List (List Char)))
    (hl : csvRecords csv_data = headerRec :: rows)
    (hmem : row ∈ rows)
    (hbad : deserializeRecord (trimRecord headerRec) (trimRecord row) = none) :
    ∃ err, parse_csv_string csv_data = Except.error err := by
  obtain ⟨err, herr⟩ :=
    mapM_deserializeRow_error (trimRecord headerRec) rows ⟨row, hmem, hbad⟩
  refine ⟨err, ?_⟩
  simp only [parse_csv_string, hl]
  exact herr

/-! Sample CSV inputs for the parser witnesses. The C6 sample quotes one
header name; the C7 sample reorders the header, pads fields with spaces,
quotes a header name and a field with an embedded comma; the C8 sample is
a single header record with a quoted embedded newline and a CRLF ending. -/

def csvBadSample : String := "full_date,\"date\",weekday,time,mood,activities,note_title,note\n2024-05-02,x\n"

def fdMay2 : String := "2024-05-02"

def xStr : String := "x"

def hdrRecBad : List (List Char) :=
  [colFullDate.data, colDate.data, colWeekday.data, colTime.data,
   colMood.data, colActivities.data, colNoteTitle.data, colNote.data]

def rowRecBad : List (List Char) := [fdMay2.data, xStr.data]

/-- C6 witness: under an eight-column header (one of them quoted), a row
with a value for only two of the mandatory columns fails the whole parse. -/
theorem parser_row_error_fails_parse_witness :
    ∃ err, parse_csv_string csvBadSample = Except.error err :=
  parser_row_error_fails_parse csvBadSample hdrRecBad rowRecBad
    [rowRecBad] (by decide) (by decide) (by decide)

/-- C8: a CSV text whose records consist of a header row and no data rows
parses to the empty sequence, not an error. -/
theorem parser_header_only_empty (csv_data : String)
    (headerRec : List (List Char))
    (hl : csvRecords csv_data = [headerRec]) :
    parse_csv_string csv_data = Except.ok [] := by
  simp only [parse_csv_string, hl]
  rfl

def csvHeaderOnlySample : String := "full_date,\"no\nte\"\r\n"

def noNlTe : String := "no\nte"

def hdrRecOnly : List (List Char) := [colFullDate.data, noNlTe.data]

/-- C8 witness: a header-only text whose second column name carries a
quoted embedded newline, terminated by CRLF; it is one record and the
parse returns the empty sequence. -/
theorem parser_header_only_empty_witness :
    parse_csv_string csvHeaderOnlySample = Except.ok [] :=
  parser_header_only_empty csvHeaderOnlySample hdrRecOnly (by decide)

/-! Claims about the Request Gate. -/

/-! Sample headers and bodies for the gate witnesses. -/

def daylioBytes : List Nat := [100, 97, 121, 108, 105, 111]

def caseDiffBytes : List Nat := [68, 97, 121, 108, 105, 111]

def caseDiffStr : String := "Daylio"

def hdrsAbsent : HeaderMap := []

def hdrsGood : HeaderMap := [(xAuthenticate, daylioBytes)]

def hdrsCaseDiff : HeaderMap := [(xAuthenticate, caseDiffBytes)]

def hdrsEmptyVal : HeaderMap := [(xAuthenticate, [])]

def hdrsBadText : HeaderMap := [(xAuthenticate, [200])]

def bodyA : List Nat := [97]

def bodyB : List Nat := [98, 99]

/-- C4 counterexample: the three authentication failure modes are not
treated identically. A missing header is Unauthorized, but a header value
that is not valid text makes `.to_str().unwrap()` panic, aborting the
handler task instead of taking the unauthorized return. -/
theorem gate_nontext_counterexample :
    handler hdrsBadText bodyA epochDate = HandlerOutcome.aborted ∧
    handler hdrsAbsent bodyA epochDate = HandlerOutcome.unauthorized ∧
    HandlerOutcome.aborted ≠ HandlerOutcome.unauthorized := by
  exact ⟨by decide, by decide, by decide⟩

/-- C4 amended: whenever the gate does not authorize the request — header
missing, text value different from the expected token, or value not valid
text — the handler terminates without decoding or parsing the body (its
outcome is independent of the body); the first two cases are Unauthorized,
while a non-text value aborts the task by an unguarded panic rather than
being treated as Unauthorized. -/
theorem handler_gate_short_circuit (headers : HeaderMap) (b1 b2 : List Nat)
    (t : NaiveDate)
    (h : gateResult headers ≠ GateResult.authorized) :
    handler headers b1 t = handler headers b2 t ∧
    (gateResult headers = GateResult.unauthorized →
      handler headers b1 t = HandlerOutcome.unauthorized) ∧
    (gateResult headers = GateResult.nonText →
      handler headers b1 t = HandlerOutcome.aborted) := by
  rcases hv : HeaderMap.get headers xAuthenticate with _ | v
  · refine ⟨by simp [handler, hv], fun _ => by simp [handler, hv], fun hg => ?_⟩
    exfalso
    simp [gateResult, hv] at hg
  · rcases hs : headerValueToStr v with _ | s
    · refine ⟨by simp [handler, hv, hs], fun hg => ?_, fun _ => by simp [handler, hv, hs]⟩
      exfalso
      simp [gateResult, hv, hs] at hg
    · by_cases he : s = expectedToken
      · exfalso
        apply h
        simp [gateResult, hv, hs, he]
      · refine ⟨?_, fun _ => ?_, fun hg => ?_⟩
        · simp [handler, hv, hs, he]
        · simp [handler, hv, hs, he]
        · exfalso
          simp [gateResult, hv, hs, he] at hg

/-- C4 witness for the amended claim: a non-text header value gives the
same aborted outcome for two different bodies, and a missing header is
Unauthorized. -/
theorem handler_gate_short_circuit_witness :
    handler hdrsBadText bodyA epochDate = handler hdrsBadText bodyB epochDate ∧
    handler hdrsBadText bodyA epochDate = HandlerOutcome.aborted ∧
    handler hdrsAbsent bodyA epochDate = HandlerOutcome.unauthorized :=
  ⟨(handler_gate_short_circuit hdrsBadText bodyA bodyB epochDate (by decide)).1,
   (handler_gate_short_circuit hdrsBadText bodyA bodyB epochDate (by decide)).2.2
     (by decide),
   (handler_gate_short_circuit hdrsAbsent bodyA bodyB epochDate (by decide)).2.1
     (by decide)⟩

/-- C9: the gate rejects a request with the header absent, or present as
text different from the expected token (which covers case-differing values
and the empty string); with exactly the expected token the handler never
takes the unauthorized return. -/
theorem request_gate_exact_token (headers : HeaderMap) (body : List Nat)
    (t : NaiveDate) :
    (HeaderMap.get headers xAuthenticate = none →
      handler headers body t = HandlerOutcome.unauthorized) ∧
    (∀ v s, HeaderMap.get headers xAuthenticate = some v →
      headerValueToStr v = some s → s ≠ expectedToken →
      handler headers body t = HandlerOutcome.unauthorized) ∧
    (∀ v, HeaderMap.get headers xAuthenticate = some v →
      headerValueToStr v = some expectedToken →
      handler headers body t ≠ HandlerOutcome.unauthorized) := by
  refine ⟨?_, ?_, ?_⟩
  · intro h
    simp [handler, h]
  · intro v s hv hs hne
    simp [handler, hv, hs, hne]
  · intro v hv hs
    simp only [handler, hv, hs, ne_eq, not_true_eq_false, if_false]
    split
    · simp
    · split
      · simp
      · split <;> simp

/-- C9 witness: absent header, case-differing value, and empty value are
each rejected; the exact token is not. -/
theorem request_gate_exact_token_witness :
    handler hdrsAbsent bodyA epochDate = HandlerOutcome.unauthorized ∧
    handler hdrsCaseDiff bodyA epochDate = HandlerOutcome.unauthorized ∧
    handler hdrsEmptyVal bodyA epochDate = HandlerOutcome.unauthorized ∧
    handler hdrsGood bodyA epochDate ≠ HandlerOutcome.unauthorized :=
  ⟨(request_gate_exact_token hdrsAbsent bodyA epochDate).1 (by decide),
   (request_gate_exact_token hdrsCaseDiff bodyA epochDate).2.1 caseDiffBytes
     caseDiffStr (by decide) (by decide) (by decide),
   (request_gate_exact_token hdrsEmptyVal bodyA epochDate).2.1 [] blank
     (by decide) (by decide) (by decide),
   (request_gate_exact_token hdrsGood bodyA epochDate).2.2 daylioBytes
     (by decide) (by decide)⟩
